import Mathlib

/-!
Shallow embedding of the PLONK arithmetization core in `src/plonk.rs`
(targets and wires, partial witnesses, the circuit builder with its
arithmetic and curve gadgets, and the routing partition structure),
together with theorems settling the specification claims about it.

The gate catalog (`plonk_gates.rs`) and the field/curve libraries are
external to this core; they are modelled from the spec as abstract
interfaces (`GateType`, `FieldOps`, `CurveOps`) where noted.
-/

namespace Plonk

def NUM_WIRES : Nat := 11
def NUM_ROUTED_WIRES : Nat := 6
def NUM_ADVICE_WIRES : Nat := NUM_WIRES - NUM_ROUTED_WIRES
def NUM_CONSTANTS : Nat := 5
def GRID_WIDTH : Nat := 65
def QUOTIENT_POLYNOMIAL_DEGREE_MULTIPLIER : Nat := 7

/-- A proxy wire used for routing and witness generation; not bound to a gate. -/
structure VirtualTarget where
  index : Nat
deriving DecidableEq

/-- A wire in the circuit: one input slot of one gate. -/
structure Wire where
  gate : Nat
  input : Nat
deriving DecidableEq

/-- A routing target. -/
inductive Target where
  | VirtualTarget (v : VirtualTarget)
  | Wire (w : Wire)
deriving DecidableEq

structure PublicInput where
  index : Nat
deriving DecidableEq

def PublicInput.original_wire (self : PublicInput) : Wire :=
  let gate := self.index / NUM_WIRES * 2
  let input := self.index % NUM_WIRES
  ⟨gate, input⟩

def PublicInput.routable_target (self : PublicInput) : Target :=
  let w := self.original_wire
  if w.input > NUM_ROUTED_WIRES then
    Target.Wire ⟨w.gate + 1, w.input - NUM_ROUTED_WIRES⟩
  else
    Target.Wire ⟨w.gate, w.input⟩

/-- The external field interface consumed by the builder (spec section 6):
identities, canonical bit decomposition (bit count and 64-bit limbs),
boolean embedding and multiplicative inverse (`none` on zero). -/
structure FieldOps (F : Type) where
  ZERO : F
  ONE : F
  NEG_ONE : F
  from_canonical_bool : Bool → F
  num_bits : F → Nat
  to_canonical_u64_vec : F → List Nat
  multiplicative_inverse : F → Option F

/-- A write-once partial assignment of targets to field values. -/
structure PartialWitness (F : Type) where
  wire_values : Target → Option F

def PartialWitness.new {F : Type} : PartialWitness F := ⟨fun _ => none⟩

/-- Lookup of an unassigned target panics in the source (`HashMap` indexing);
modelled as an error result. -/
def PartialWitness.get_target {F : Type} (self : PartialWitness F) (target : Target) :
    Except String F :=
  match self.wire_values target with
  | some v => .ok v
  | none => .error "no entry found for key"

/-- Inserts the value, then `debug_assert!`s that no value was already present;
the assertion failure is modelled as an error result. -/
def PartialWitness.set_target {F : Type} (self : PartialWitness F) (target : Target) (value : F) :
    Except String (PartialWitness F) :=
  let old_value := self.wire_values target
  if old_value.isNone then
    .ok ⟨fun t => if t = target then some value else self.wire_values t⟩
  else
    .error "Target was set twice"

def PartialWitness.set_wire {F : Type} (self : PartialWitness F) (wire : Wire) (value : F) :
    Except String (PartialWitness F) :=
  self.set_target (Target.Wire wire) value

def PartialWitness.get_wire {F : Type} (self : PartialWitness F) (wire : Wire) :
    Except String F :=
  self.get_target (Target.Wire wire)

/-- Modelled from the spec: the gate catalog (`plonk_gates.rs`, not part of this
core) exposes per gate type a stable name and a fixed boolean prefix of
constant bits selecting its behavior. -/
structure GateType where
  NAME : String
  PREFIX : List Bool
deriving DecidableEq

/-- Modelled from the spec: the generic two-multiplicand-plus-addend arithmetic
gate of the external catalog. The prefix value is representative (the spec
fixes only its existence); it satisfies the builder's constant-count bound
for the three supplied constants. -/
def ArithmeticGate : GateType := ⟨"ArithmeticGate", [true, false]⟩

/-- Modelled from the spec: the passthrough/buffer gate hosting constants and
re-exposing outputs. Its prefix length must be at most 4 so that
`create_constant_wire`'s one supplied constant fits the constant-count bound. -/
def BufferGate : GateType := ⟨"BufferGate", [true, false, false, false]⟩

/-- Modelled from the spec: the public-input-exposing gate. -/
def PublicInputGate : GateType := ⟨"PublicInputGate", [true, true]⟩

/-- Modelled from the spec: the elliptic-curve point addition gate. -/
def CurveAddGate : GateType := ⟨"CurveAddGate", [false]⟩

/-- Modelled from the spec: the elliptic-curve point doubling gate. -/
def CurveDblGate : GateType := ⟨"CurveDblGate", [false, true]⟩

/-- Modelled from the spec: the gate catalog fixes integer wire-slot indices for
each gate's logical inputs and outputs; the concrete values are representative. -/
def BufferGate.WIRE_BUFFER_CONST : Nat := 0

/-- Modelled from the spec: arithmetic gate wire slots. -/
def ArithmeticGate.WIRE_MULTIPLICAND_0 : Nat := 0

/-- Modelled from the spec: arithmetic gate wire slots. -/
def ArithmeticGate.WIRE_MULTIPLICAND_1 : Nat := 1

/-- Modelled from the spec: arithmetic gate wire slots. -/
def ArithmeticGate.WIRE_ADDEND : Nat := 2

/-- Modelled from the spec: arithmetic gate wire slots. -/
def ArithmeticGate.WIRE_OUTPUT : Nat := 3

/-- Modelled from the spec: curve addition gate wire slots. -/
def CurveAddGate.WIRE_GROUP_ACC_X : Nat := 0

/-- Modelled from the spec: curve addition gate wire slots. -/
def CurveAddGate.WIRE_GROUP_ACC_Y : Nat := 1

/-- Modelled from the spec: curve addition gate wire slots. -/
def CurveAddGate.WIRE_SCALAR_ACC_OLD : Nat := 2

/-- Modelled from the spec: curve addition gate wire slots. -/
def CurveAddGate.WIRE_SCALAR_ACC_NEW : Nat := 3

/-- Modelled from the spec: curve addition gate wire slots. -/
def CurveAddGate.WIRE_ADDEND_X : Nat := 4

/-- Modelled from the spec: curve addition gate wire slots. -/
def CurveAddGate.WIRE_ADDEND_Y : Nat := 5

/-- Modelled from the spec: curve addition gate wire slots. -/
def CurveAddGate.WIRE_SCALAR_BIT : Nat := 6

/-- Modelled from the spec: curve doubling gate wire slots. -/
def CurveDblGate.WIRE_X_OLD : Nat := 0

/-- Modelled from the spec: curve doubling gate wire slots. -/
def CurveDblGate.WIRE_Y_OLD : Nat := 1

/-- Modelled from the spec: curve doubling gate wire slots. -/
def CurveDblGate.WIRE_X_NEW : Nat := 2

/-- Modelled from the spec: curve doubling gate wire slots. -/
def CurveDblGate.WIRE_Y_NEW : Nat := 3

/-- The witness generators registered by the gadgets this development embeds:
every added gate acts as its own (here opaque) generator, and `inv` registers
an `InverseGenerator` closing over its input and output targets. -/
inductive Generator (F : Type) where
  | gate (name : String)
  | InverseGenerator (x x_inv : Target)
deriving DecidableEq

def Generator.dependencies {F : Type} : Generator F → List Target
  | .gate _ => []
  | .InverseGenerator x _ => [x]

/-- The `generate` method of `InverseGenerator`: reads `x`'s value (an error if
unassigned, as `get_target` panics) and produces the external field inverse at
the freshly allocated output target, failing with the source's `expect`
message when the inverse does not exist. Gate generators are opaque here. -/
def Generator.generate {F : Type} [DecidableEq F] (fo : FieldOps F) :
    Generator F → PartialWitness F → Except String (PartialWitness F)
  | .gate _, _ => .ok PartialWitness.new
  | .InverseGenerator x x_inv, witness =>
    match witness.wire_values x with
    | none => .error "no entry found for key"
    | some x_value =>
      match fo.multiplicative_inverse x_value with
      | none => .error "x = 0"
      | some x_inv_value =>
        .ok ⟨fun t => if t = x_inv then some x_inv_value else none⟩

structure AffinePointTarget where
  x : Target
  y : Target
deriving DecidableEq

/-- The external curve library's affine point: coordinates plus a zero/identity
flag (spec section 6). -/
structure AffinePoint (F : Type) where
  x : F
  y : F
  zero : Bool

/-- The external curve interface consumed by the builder: a fixed affine
generator and point doubling. -/
structure CurveOps (F : Type) where
  GENERATOR_AFFINE : AffinePoint F
  double : AffinePoint F → AffinePoint F

structure MsmPart where
  scalar_bits : List Target
  addend : AffinePointTarget

structure FixedBaseMsmPart (F : Type) where
  scalar_bits : List Target
  addend : AffinePoint F

structure MsmResult where
  sum : AffinePointTarget
  scalars : List Target

structure CircuitBuilder (F : Type) where
  public_input_index : Nat
  virtual_target_index : Nat
  gate_counts : String → Nat
  gate_constants : List (List F)
  copy_constraints : List (Target × Target)
  generators : List (Generator F)
  constant_wires : List (F × Target)

namespace CircuitBuilder

variable {F : Type} [DecidableEq F]

def new : CircuitBuilder F :=
  { public_input_index := 0
    virtual_target_index := 0
    gate_counts := fun _ => 0
    gate_constants := []
    copy_constraints := []
    generators := []
    constant_wires := [] }

def num_gates (self : CircuitBuilder F) : Nat :=
  self.gate_constants.length

def copy (self : CircuitBuilder F) (target_1 target_2 : Target) : CircuitBuilder F :=
  { self with copy_constraints := self.copy_constraints ++ [(target_1, target_2)] }

def add_generator (self : CircuitBuilder F) (gate : Generator F) : CircuitBuilder F :=
  { self with generators := self.generators ++ [gate] }

/-- `add_gate` merges the gate type's prefix bits with the given config
constants into one row. The source's `debug_assert!` that
`PREFIX.len() + gate_constants.len() <= NUM_CONSTANTS` is stated as the
hypothesis `add_gate_assert` in the theorems about this definition. -/
def add_gate (fo : FieldOps F) (self : CircuitBuilder F) (gate : GateType)
    (gate_constants : List F) : CircuitBuilder F :=
  let all_constants := gate.PREFIX.map fo.from_canonical_bool ++ gate_constants
  { self with
      gate_constants := self.gate_constants ++ [all_constants]
      generators := self.generators ++ [.gate gate.NAME]
      gate_counts := fun n => if n = gate.NAME then self.gate_counts n + 1 else self.gate_counts n }

/-- The source's `debug_assert!` guarding `add_gate`. -/
def add_gate_assert (gate : GateType) {G : Type} (gate_constants : List G) : Prop :=
  gate.PREFIX.length + gate_constants.length ≤ NUM_CONSTANTS

def add_gate_no_constants (fo : FieldOps F) (self : CircuitBuilder F) (gate : GateType) :
    CircuitBuilder F :=
  add_gate fo self gate []

def add_virtual_target (self : CircuitBuilder F) : Target × CircuitBuilder F :=
  let index := self.virtual_target_index
  (Target.VirtualTarget ⟨index⟩, { self with virtual_target_index := index + 1 })

/-- `HashMap` lookup in the constant cache, modelled on the association list. -/
def lookup_constant (m : List (F × Target)) (c : F) : Option Target :=
  (m.find? (fun p => p.1 = c)).map (fun p => p.2)

def create_constant_wire (fo : FieldOps F) (self : CircuitBuilder F) (c : F) :
    Target × CircuitBuilder F :=
  let index := self.num_gates
  let s := add_gate fo self BufferGate [c]
  (Target.Wire ⟨index, BufferGate.WIRE_BUFFER_CONST⟩, s)

def constant_wire (fo : FieldOps F) (self : CircuitBuilder F) (c : F) :
    Target × CircuitBuilder F :=
  match lookup_constant self.constant_wires c with
  | some t => (t, self)
  | none =>
    let r := create_constant_wire fo self c
    (r.1, { r.2 with constant_wires := (c, r.1) :: r.2.constant_wires })

def zero_wire (fo : FieldOps F) (self : CircuitBuilder F) : Target × CircuitBuilder F :=
  constant_wire fo self fo.ZERO

def one_wire (fo : FieldOps F) (self : CircuitBuilder F) : Target × CircuitBuilder F :=
  constant_wire fo self fo.ONE

def neg_one_wire (fo : FieldOps F) (self : CircuitBuilder F) : Target × CircuitBuilder F :=
  constant_wire fo self fo.NEG_ONE

/-- `constant_affine_point` asserts the point is not the curve identity, then
returns the memoized constant wires for its coordinates. -/
def constant_affine_point (fo : FieldOps F) (self : CircuitBuilder F) (point : AffinePoint F) :
    Except String (AffinePointTarget × CircuitBuilder F) :=
  if point.zero then .error "assert failed: !point.zero"
  else
    let rx := constant_wire fo self point.x
    let ry := constant_wire fo rx.2 point.y
    .ok (⟨rx.1, ry.1⟩, ry.2)

def add (fo : FieldOps F) (self : CircuitBuilder F) (x y : Target) :
    Target × CircuitBuilder F :=
  let zr := zero_wire fo self
  let zero := zr.1
  let s := zr.2
  if x = zero then (y, s)
  else if y = zero then (x, s)
  else
    let onr := one_wire fo s
    let one := onr.1
    let s := onr.2
    let index := s.num_gates
    let s := add_gate fo s ArithmeticGate [fo.ONE, fo.ONE, fo.ZERO]
    let s := copy s x (Target.Wire ⟨index, ArithmeticGate.WIRE_MULTIPLICAND_0⟩)
    let s := copy s one (Target.Wire ⟨index, ArithmeticGate.WIRE_MULTIPLICAND_1⟩)
    let s := copy s y (Target.Wire ⟨index, ArithmeticGate.WIRE_ADDEND⟩)
    (Target.Wire ⟨index, ArithmeticGate.WIRE_OUTPUT⟩, s)

def sub (fo : FieldOps F) (self : CircuitBuilder F) (x y : Target) :
    Target × CircuitBuilder F :=
  let zr := zero_wire fo self
  let zero := zr.1
  let s := zr.2
  if y = zero then (x, s)
  else
    let onr := one_wire fo s
    let one := onr.1
    let s := onr.2
    let index := s.num_gates
    let s := add_gate fo s ArithmeticGate [fo.ONE, fo.NEG_ONE, fo.ZERO]
    let s := copy s x (Target.Wire ⟨index, ArithmeticGate.WIRE_MULTIPLICAND_0⟩)
    let s := copy s one (Target.Wire ⟨index, ArithmeticGate.WIRE_MULTIPLICAND_1⟩)
    let s := copy s y (Target.Wire ⟨index, ArithmeticGate.WIRE_ADDEND⟩)
    (Target.Wire ⟨index, ArithmeticGate.WIRE_OUTPUT⟩, s)

def mul (fo : FieldOps F) (self : CircuitBuilder F) (x y : Target) :
    Target × CircuitBuilder F :=
  let onr := one_wire fo self
  let one := onr.1
  let s := onr.2
  if x = one then (y, s)
  else if y = one then (x, s)
  else
    let zr := zero_wire fo s
    let zero := zr.1
    let s := zr.2
    let index := s.num_gates
    let s := add_gate fo s ArithmeticGate [fo.ONE, fo.ZERO, fo.ZERO]
    let s := copy s x (Target.Wire ⟨index, ArithmeticGate.WIRE_MULTIPLICAND_0⟩)
    let s := copy s y (Target.Wire ⟨index, ArithmeticGate.WIRE_MULTIPLICAND_1⟩)
    let s := copy s zero (Target.Wire ⟨index, ArithmeticGate.WIRE_ADDEND⟩)
    (Target.Wire ⟨index, ArithmeticGate.WIRE_OUTPUT⟩, s)

def square (fo : FieldOps F) (self : CircuitBuilder F) (x : Target) :
    Target × CircuitBuilder F :=
  mul fo self x x

def neg (fo : FieldOps F) (self : CircuitBuilder F) (x : Target) :
    Target × CircuitBuilder F :=
  let nr := neg_one_wire fo self
  mul fo nr.2 x nr.1

/-- The little-endian bits of one 64-bit limb, in the order the source's inner
`for j in 0..64` loop visits them. -/
def limb_bits (limb : Nat) : List Bool :=
  (List.range 64).map (fun j => ((limb >>> j) &&& 1) != 0)

/-- The nested limb/bit loop of `exp_constant`, flattened over the concatenated
little-endian bit list (the source's `bit_index = i * 64 + j` enumerates
exactly this list), with the early return at `bit_index == power_bits`.
The third component counts the `square` calls performed. -/
def exp_constant_loop (fo : FieldOps F) (s : CircuitBuilder F) (current product : Target)
    (bits : List Bool) (power_bits bit_index : Nat) :
    Target × CircuitBuilder F × Nat :=
  match bits with
  | [] => (product, s, 0)
  | b :: rest =>
    if bit_index = power_bits then (product, s, 0)
    else
      let pr := if b then mul fo s product current else (product, s)
      let cr := square fo pr.2 current
      let r := exp_constant_loop fo cr.2 cr.1 pr.1 rest power_bits (bit_index + 1)
      (r.1, r.2.1, r.2.2 + 1)

/-- Compute `x^power` for a constant `power` by square-and-multiply over the
exponent's little-endian bits, stopping at its highest set bit. -/
def exp_constant (fo : FieldOps F) (self : CircuitBuilder F) (x : Target) (power : F) :
    Target × CircuitBuilder F :=
  let power_bits := fo.num_bits power
  let current := x
  let pr := one_wire fo self
  let bits := (fo.to_canonical_u64_vec power).flatMap limb_bits
  let r := exp_constant_loop fo pr.2 current pr.1 bits power_bits 0
  (r.1, r.2.1)

/-- The number of `square` calls `exp_constant` performs. -/
def exp_constant_squarings (fo : FieldOps F) (self : CircuitBuilder F) (x : Target) (power : F) :
    Nat :=
  let power_bits := fo.num_bits power
  let pr := one_wire fo self
  let bits := (fo.to_canonical_u64_vec power).flatMap limb_bits
  (exp_constant_loop fo pr.2 x pr.1 bits power_bits 0).2.2

/-- `inv` allocates a virtual target for the result, registers an
`InverseGenerator`, and enforces `x * x_inv = 1` by copy-constraining the
`mul` output to the one constant. -/
def inv (fo : FieldOps F) (self : CircuitBuilder F) (x : Target) :
    Target × CircuitBuilder F :=
  let vr := add_virtual_target self
  let x_inv := vr.1
  let s := add_generator vr.2 (.InverseGenerator x x_inv)
  let pr := mul fo s x x_inv
  let onr := one_wire fo pr.2
  let s := copy onr.2 pr.1 onr.1
  (x_inv, s)

def curve_neg (fo : FieldOps F) (self : CircuitBuilder F) (p : AffinePointTarget) :
    AffinePointTarget × CircuitBuilder F :=
  let nr := neg fo self p.y
  (⟨p.x, nr.1⟩, nr.2)

def curve_add (fo : FieldOps F) (self : CircuitBuilder F) (p_1 p_2 : AffinePointTarget) :
    AffinePointTarget × CircuitBuilder F :=
  let _ := p_1
  let _ := p_2
  let add_index := self.num_gates
  let s := add_gate_no_constants fo self CurveAddGate
  let _ := add_index
  let buffer_index := s.num_gates
  let s := add_gate_no_constants fo s BufferGate
  -- Input wiring is a TODO in the source; only the output slots are produced.
  (⟨Target.Wire ⟨buffer_index, CurveAddGate.WIRE_GROUP_ACC_X⟩,
    Target.Wire ⟨buffer_index, CurveAddGate.WIRE_GROUP_ACC_Y⟩⟩, s)

def curve_sub (fo : FieldOps F) (self : CircuitBuilder F) (p_1 p_2 : AffinePointTarget) :
    AffinePointTarget × CircuitBuilder F :=
  let nr := curve_neg fo self p_2
  curve_add fo nr.2 p_1 nr.1

end CircuitBuilder

/-- Mutable state threaded through `curve_msm`'s bit loop. -/
structure MsmState (F : Type) where
  s : CircuitBuilder F
  acc : AffinePointTarget
  scalars : List Target
  filler : AffinePoint F

namespace CircuitBuilder

variable {F : Type} [DecidableEq F]

/-- One part's conditional add inside one bit round of `curve_msm`. -/
def msm_part_step (fo : FieldOps F) (i : Nat) (st : CircuitBuilder F × List Target)
    (jp : Nat × MsmPart) : CircuitBuilder F × List Target :=
  let j := jp.1
  let part := jp.2
  if i < part.scalar_bits.length then
    let bit := part.scalar_bits.getD i (Target.VirtualTarget ⟨0⟩)
    let s := st.1
    let scalars := st.2
    let idx_add := s.num_gates
    let s := add_gate_no_constants fo s CurveAddGate
    let s := copy s (scalars.getD j (Target.VirtualTarget ⟨0⟩))
        (Target.Wire ⟨idx_add, CurveAddGate.WIRE_SCALAR_ACC_OLD⟩)
    let scalars := scalars.set j (Target.Wire ⟨idx_add, CurveAddGate.WIRE_SCALAR_ACC_NEW⟩)
    let s := copy s part.addend.x (Target.Wire ⟨idx_add, CurveAddGate.WIRE_ADDEND_X⟩)
    let s := copy s part.addend.y (Target.Wire ⟨idx_add, CurveAddGate.WIRE_ADDEND_Y⟩)
    let s := copy s bit (Target.Wire ⟨idx_add, CurveAddGate.WIRE_SCALAR_BIT⟩)
    (s, scalars)
  else st

/-- One bit round of `curve_msm`: route the accumulator into the round's first
curve-add gate, conditionally add every live part, then double the
accumulator and the filler. -/
def msm_round (fo : FieldOps F) (co : CurveOps F) (parts : List MsmPart)
    (st : MsmState F) (i : Nat) : MsmState F :=
  let s := st.s
  let s := copy s st.acc.x (Target.Wire ⟨s.num_gates, CurveAddGate.WIRE_GROUP_ACC_X⟩)
  let s := copy s st.acc.y (Target.Wire ⟨s.num_gates, CurveAddGate.WIRE_GROUP_ACC_Y⟩)
  let inner := parts.enum.foldl (msm_part_step fo i) (s, st.scalars)
  let s := inner.1
  let idx_dbl := s.num_gates
  let s := add_gate_no_constants fo s CurveDblGate
  { s := s
    acc := ⟨Target.Wire ⟨idx_dbl, CurveDblGate.WIRE_X_NEW⟩,
            Target.Wire ⟨idx_dbl, CurveDblGate.WIRE_Y_NEW⟩⟩
    scalars := inner.2
    filler := co.double st.filler }

/-- The tail of `curve_msm`: materialize the repeatedly doubled filler as a
constant point (asserting it nonzero) and subtract it from the accumulator. -/
def msm_subtract_filler (fo : FieldOps F) (st : MsmState F) :
    Except String (MsmResult × CircuitBuilder F) :=
  match constant_affine_point fo st.s st.filler with
  | .error e => .error e
  | .ok fts =>
    let sr := curve_sub fo fts.2 st.acc fts.1
    .ok (⟨sr.1, st.scalars⟩, sr.2)

/-- `curve_msm`: seeds the accumulator with the curve generator as a nonzero
filler, runs the double-and-add schedule from the highest bit down
(`expect`-failing on an empty part list), and subtracts the repeatedly
doubled filler at the end. -/
def curve_msm (fo : FieldOps F) (co : CurveOps F) (self : CircuitBuilder F)
    (parts : List MsmPart) : Except String (MsmResult × CircuitBuilder F) :=
  let filler := co.GENERATOR_AFFINE
  match constant_affine_point fo self filler with
  | .error e => .error e
  | .ok accs =>
    let zr := zero_wire fo accs.2
    let scalars := List.replicate parts.length zr.1
    match (parts.map (fun p => p.scalar_bits.length)).max? with
    | none => .error "Empty MSM"
    | some max_bits =>
      let st := ((List.range max_bits).reverse).foldl (msm_round fo co parts)
          ⟨zr.2, accs.1, scalars, filler⟩
      msm_subtract_filler fo st

/-- The sequential `map` of `curve_msm_fixed_base`, materializing each
compile-time addend as a constant point. -/
def fixed_base_variable_parts (fo : FieldOps F) :
    List (FixedBaseMsmPart F) → CircuitBuilder F →
    Except String (List MsmPart × CircuitBuilder F)
  | [], s => .ok ([], s)
  | p :: ps, s =>
    match constant_affine_point fo s p.addend with
    | .error e => .error e
    | .ok aps =>
      match fixed_base_variable_parts fo ps aps.2 with
      | .error e => .error e
      | .ok rest => .ok (⟨p.scalar_bits, aps.1⟩ :: rest.1, rest.2)

def curve_msm_fixed_base (fo : FieldOps F) (co : CurveOps F) (self : CircuitBuilder F)
    (parts : List (FixedBaseMsmPart F)) : Except String (MsmResult × CircuitBuilder F) :=
  match fixed_base_variable_parts fo parts self with
  | .error e => .error e
  | .ok vps => curve_msm fo co vps.2 vps.1

end CircuitBuilder

/-- The union-find-like structure over routing targets: per class a member
list, plus a map from target to class id. -/
structure RoutingTargetPartitions where
  partitions : List (List Target)
  indices : Target → Option Nat

def RoutingTargetPartitions.new : RoutingTargetPartitions :=
  ⟨[], fun _ => none⟩

/-- Add a new partition with a single member. -/
def RoutingTargetPartitions.add_partition (self : RoutingTargetPartitions) (target : Target) :
    RoutingTargetPartitions :=
  let index := self.partitions.length
  { partitions := self.partitions ++ [[target]]
    indices := fun t => if t = target then some index else self.indices t }

/-- Merge the partitions containing the two targets (no-op when equal).
The source clones `a`'s member list, repoints every member's index entry at
`b`'s class, and drains the clone into `b`'s list; the entry at `a_index`
itself is not cleared. Index lookup of an unregistered target panics,
modelled as `none`. -/
def RoutingTargetPartitions.merge (self : RoutingTargetPartitions) (a b : Target) :
    Option RoutingTargetPartitions :=
  match self.indices a, self.indices b with
  | some a_index, some b_index =>
    if a_index = b_index then some self
    else
      let a_partition := self.partitions.getD a_index []
      some { partitions :=
               self.partitions.set b_index (self.partitions.getD b_index [] ++ a_partition)
             indices := fun t => if t ∈ a_partition then some b_index else self.indices t }
  | _, _ => none

/-- The finalization performed by `CircuitBuilder::get_routing_partitions`:
register every virtual target and every wire slot of every gate, then apply
every recorded copy constraint as a merge. -/
def get_routing_partitions_from (virtual_target_index num_gates : Nat)
    (copy_constraints : List (Target × Target)) : Option RoutingTargetPartitions :=
  let p := RoutingTargetPartitions.new
  let p := (List.range virtual_target_index).foldl
      (fun p i => p.add_partition (Target.VirtualTarget ⟨i⟩)) p
  let p := (List.range num_gates).foldl
      (fun p gate => (List.range NUM_WIRES).foldl
        (fun p input => p.add_partition (Target.Wire ⟨gate, input⟩)) p) p
  copy_constraints.foldlM (fun p ab => p.merge ab.1 ab.2) p

def CircuitBuilder.get_routing_partitions {F : Type} [DecidableEq F]
    (self : CircuitBuilder F) : Option RoutingTargetPartitions :=
  get_routing_partitions_from self.virtual_target_index self.num_gates self.copy_constraints

/-- The immutable finished circuit. -/
structure Circuit (F : Type) where
  gate_constants : List (List F)
  routing_target_partitions : RoutingTargetPartitions
  generators : List (Generator F)

def CircuitBuilder.build {F : Type} [DecidableEq F] (self : CircuitBuilder F) :
    Option (Circuit F) :=
  match self.get_routing_partitions with
  | none => none
  | some rtp => some ⟨self.gate_constants, rtp, self.generators⟩

/-- A concrete instance of the external field interface over `ZMod 13`,
used to evaluate the embedding at concrete inputs. -/
def fo13 : FieldOps (ZMod 13) where
  ZERO := 0
  ONE := 1
  NEG_ONE := -1
  from_canonical_bool := fun b => if b then 1 else 0
  num_bits := fun x => if x.val = 0 then 0 else Nat.log2 x.val + 1
  to_canonical_u64_vec := fun x => [x.val]
  multiplicative_inverse := fun x => if x = 0 then none else some x⁻¹

/-- A concrete instance of the external curve interface with a nonzero
generator, used to evaluate the embedding at concrete inputs. -/
def co13 : CurveOps (ZMod 13) where
  GENERATOR_AFFINE := ⟨1, 2, false⟩
  double := fun p => p

theorem CircuitBuilder.constant_wire_cached {F : Type} [DecidableEq F] (fo : FieldOps F)
    (s : CircuitBuilder F) (c : F) (t : Target)
    (h : CircuitBuilder.lookup_constant s.constant_wires c = some t) :
    CircuitBuilder.constant_wire fo s c = (t, s) := by
  unfold CircuitBuilder.constant_wire
  rw [h]

theorem CircuitBuilder.constant_wire_uncached {F : Type} [DecidableEq F] (fo : FieldOps F)
    (s : CircuitBuilder F) (c : F)
    (h : CircuitBuilder.lookup_constant s.constant_wires c = none) :
    CircuitBuilder.constant_wire fo s c =
      (Target.Wire ⟨s.num_gates, BufferGate.WIRE_BUFFER_CONST⟩,
       { CircuitBuilder.add_gate fo s BufferGate [c] with
           constant_wires :=
             (c, Target.Wire ⟨s.num_gates, BufferGate.WIRE_BUFFER_CONST⟩) ::
               (CircuitBuilder.add_gate fo s BufferGate [c]).constant_wires }) := by
  unfold CircuitBuilder.constant_wire
  rw [h]
  rfl

/-- C2: `routable_target` remaps only when the raw slot is strictly greater than
`NUM_ROUTED_WIRES`, so public input index 6 (raw slot 6) is left at gate 0,
slot 6 — a slot outside the routed range — while index 7 is remapped to
gate 1, slot 1 as the claim's example states. -/
theorem c2_routable_target_boundary :
    PublicInput.routable_target ⟨6⟩ = Target.Wire ⟨0, 6⟩ ∧
    ¬ (6 < NUM_ROUTED_WIRES) ∧
    PublicInput.routable_target ⟨7⟩ = Target.Wire ⟨1, 1⟩ := by
  refine ⟨by decide, by decide, by decide⟩

/-- C1: finalizing a circuit with two virtual targets and the single copy
constraint (V0, V1) leaves V0 a member of two classes, [[V0], [V1, V0]] —
`merge` drains only a clone of the merged-away member list, so the entry at
the old class index is never emptied and the classes are not disjoint,
contrary to the claim (and to the merge code's own comment). -/
theorem c1_merge_leaves_stale_class :
    (get_routing_partitions_from 2 0
        [(Target.VirtualTarget ⟨0⟩, Target.VirtualTarget ⟨1⟩)]).map
      (fun p => (p.partitions,
        p.partitions.countP (fun cls => decide (Target.VirtualTarget ⟨0⟩ ∈ cls))))
      = some ([[Target.VirtualTarget ⟨0⟩],
               [Target.VirtualTarget ⟨1⟩, Target.VirtualTarget ⟨0⟩]], 2) := by
  decide

/-- C4 (amended): `add_gate` appends exactly one row consisting of the gate
type's prefix bits converted to field elements followed by the supplied
constants; its length is `prefix_length + supplied_constants_length`, which
the source's `debug_assert!` bounds by `NUM_CONSTANTS`. Rows are not padded
beyond that. -/
theorem c4_add_gate_row_shape {F : Type} [DecidableEq F] (fo : FieldOps F)
    (s : CircuitBuilder F) (g : GateType) (gate_constants : List F)
    (h : CircuitBuilder.add_gate_assert g gate_constants) :
    (CircuitBuilder.add_gate fo s g gate_constants).gate_constants
      = s.gate_constants ++ [g.PREFIX.map fo.from_canonical_bool ++ gate_constants] ∧
    (g.PREFIX.map fo.from_canonical_bool ++ gate_constants).length
      = g.PREFIX.length + gate_constants.length ∧
    (g.PREFIX.map fo.from_canonical_bool ++ gate_constants).length ≤ NUM_CONSTANTS := by
  refine ⟨rfl, by simp, ?_⟩
  unfold CircuitBuilder.add_gate_assert at h
  simpa using h

theorem c4_add_gate_row_shape_witness :
    CircuitBuilder.add_gate_assert ArithmeticGate [fo13.ONE, fo13.ONE, fo13.ZERO] ∧
    (CircuitBuilder.add_gate fo13 (CircuitBuilder.new) ArithmeticGate
        [fo13.ONE, fo13.ONE, fo13.ZERO]).gate_constants
      = (CircuitBuilder.new : CircuitBuilder (ZMod 13)).gate_constants ++
          [ArithmeticGate.PREFIX.map fo13.from_canonical_bool ++ [fo13.ONE, fo13.ONE, fo13.ZERO]] ∧
    (ArithmeticGate.PREFIX.map fo13.from_canonical_bool ++
        [fo13.ONE, fo13.ONE, fo13.ZERO]).length ≤ NUM_CONSTANTS := by
  have h : CircuitBuilder.add_gate_assert ArithmeticGate
      [fo13.ONE, fo13.ONE, fo13.ZERO] := by
    unfold CircuitBuilder.add_gate_assert
    decide
  obtain ⟨h1, _, h3⟩ := c4_add_gate_row_shape fo13 (CircuitBuilder.new) ArithmeticGate
    [fo13.ONE, fo13.ONE, fo13.ZERO] h
  exact ⟨h, h1, h3⟩

/-- C4 counterexample: a gate added with no supplied constants — as
`add_gate_no_constants` does for every buffer, public-input and curve gate —
produces a row strictly shorter than `NUM_CONSTANTS`; no padding to length
exactly `NUM_CONSTANTS` takes place. -/
theorem c4_rows_not_padded :
    ((CircuitBuilder.add_gate fo13 (CircuitBuilder.new) BufferGate []).gate_constants.map
      List.length) = [4] ∧ (4 : Nat) ≠ NUM_CONSTANTS := by
  decide

/-- C5: the partial witness is write-once — setting a target that already has
a value fails with the distinct "Target was set twice" error instead of
silently overwriting, and looking up an unassigned target is an error
rather than a default; a first set of an unassigned target succeeds. -/
theorem c5_partial_witness_write_once {F : Type} (w : PartialWitness F) (t : Target) (v v' : F) :
    ((w.wire_values t).isSome → w.set_target t v' = .error "Target was set twice") ∧
    (w.wire_values t = none →
      w.get_target t = .error "no entry found for key" ∧
      w.set_target t v = .ok ⟨fun u => if u = t then some v else w.wire_values u⟩) := by
  constructor
  · intro h
    unfold PartialWitness.set_target
    have : (w.wire_values t).isNone = false := by
      cases hv : w.wire_values t with
      | none => rw [hv] at h; simp at h
      | some u => simp
    simp [this]
  · intro h
    constructor
    · unfold PartialWitness.get_target
      rw [h]
    · unfold PartialWitness.set_target
      rw [h]
      rfl

theorem c5_partial_witness_write_once_witness :
    PartialWitness.set_target
        (⟨fun u => if u = Target.VirtualTarget ⟨0⟩ then some (3 : Nat) else none⟩)
        (Target.VirtualTarget ⟨0⟩) 5 = .error "Target was set twice" ∧
    PartialWitness.get_target (PartialWitness.new (F := Nat)) (Target.VirtualTarget ⟨0⟩)
      = .error "no entry found for key" := by
  refine ⟨(c5_partial_witness_write_once _ (Target.VirtualTarget ⟨0⟩) 5 5).1 (by decide),
    ((c5_partial_witness_write_once (PartialWitness.new (F := Nat))
      (Target.VirtualTarget ⟨0⟩) 5 5).2 rfl).1⟩

/-- C6: `constant_wire` memoizes — a repeated value returns the identical
cached target with the builder unchanged; a new value appends exactly one
buffer gate row holding the value in its constant slot, caches the returned
wire, and a second call then returns that identical target without a new
gate; `zero_wire`, `one_wire` and `neg_one_wire` go through this cache. -/
theorem c6_constant_wire_memoized {F : Type} [DecidableEq F] (fo : FieldOps F)
    (s : CircuitBuilder F) (c : F) :
    (∀ t0, CircuitBuilder.lookup_constant s.constant_wires c = some t0 →
        CircuitBuilder.constant_wire fo s c = (t0, s)) ∧
    (CircuitBuilder.lookup_constant s.constant_wires c = none →
        (CircuitBuilder.constant_wire fo s c).2.gate_constants
          = s.gate_constants ++ [BufferGate.PREFIX.map fo.from_canonical_bool ++ [c]] ∧
        (CircuitBuilder.constant_wire fo s c).1
          = Target.Wire ⟨s.num_gates, BufferGate.WIRE_BUFFER_CONST⟩ ∧
        CircuitBuilder.lookup_constant (CircuitBuilder.constant_wire fo s c).2.constant_wires c
          = some (CircuitBuilder.constant_wire fo s c).1 ∧
        CircuitBuilder.constant_wire fo (CircuitBuilder.constant_wire fo s c).2 c
          = ((CircuitBuilder.constant_wire fo s c).1, (CircuitBuilder.constant_wire fo s c).2)) ∧
    CircuitBuilder.zero_wire fo s = CircuitBuilder.constant_wire fo s fo.ZERO ∧
    CircuitBuilder.one_wire fo s = CircuitBuilder.constant_wire fo s fo.ONE ∧
    CircuitBuilder.neg_one_wire fo s = CircuitBuilder.constant_wire fo s fo.NEG_ONE := by
  refine ⟨fun t0 h => CircuitBuilder.constant_wire_cached fo s c t0 h, fun h => ?_, rfl, rfl, rfl⟩
  rw [CircuitBuilder.constant_wire_uncached fo s c h]
  have hcache : CircuitBuilder.lookup_constant
      ((c, Target.Wire ⟨s.num_gates, BufferGate.WIRE_BUFFER_CONST⟩) ::
        (CircuitBuilder.add_gate fo s BufferGate [c]).constant_wires) c
      = some (Target.Wire ⟨s.num_gates, BufferGate.WIRE_BUFFER_CONST⟩) := by
    unfold CircuitBuilder.lookup_constant
    simp [List.find?]
  refine ⟨rfl, rfl, hcache, ?_⟩
  exact CircuitBuilder.constant_wire_cached fo _ c _ hcache

theorem c6_constant_wire_memoized_witness :
    CircuitBuilder.lookup_constant
        (CircuitBuilder.new : CircuitBuilder (ZMod 13)).constant_wires (4 : ZMod 13) = none ∧
    (CircuitBuilder.constant_wire fo13 (CircuitBuilder.new) (4 : ZMod 13)).2.gate_constants
      = (CircuitBuilder.new : CircuitBuilder (ZMod 13)).gate_constants ++
          [BufferGate.PREFIX.map fo13.from_canonical_bool ++ [(4 : ZMod 13)]] ∧
    CircuitBuilder.constant_wire fo13
        (CircuitBuilder.constant_wire fo13 (CircuitBuilder.new) (4 : ZMod 13)).2 (4 : ZMod 13)
      = ((CircuitBuilder.constant_wire fo13 (CircuitBuilder.new) (4 : ZMod 13)).1,
         (CircuitBuilder.constant_wire fo13 (CircuitBuilder.new) (4 : ZMod 13)).2) := by
  have h : CircuitBuilder.lookup_constant
      (CircuitBuilder.new : CircuitBuilder (ZMod 13)).constant_wires (4 : ZMod 13) = none := rfl
  obtain ⟨h1, _, _, h4⟩ := (c6_constant_wire_memoized fo13 (CircuitBuilder.new) (4 : ZMod 13)).2.1 h
  exact ⟨h, h1, h4⟩

/-- C3 counterexample: with the zero and one constants cached (gates 0 and 1),
calling `sub` with the zero target as minuend and the one target as
subtrahend does not return the other operand — it emits a third gate —
refuting "sub short-circuits when either operand is the zero target". -/
theorem c3_sub_zero_minuend_emits_gate :
    (let s0 : CircuitBuilder (ZMod 13) := CircuitBuilder.new
     let zr := CircuitBuilder.zero_wire fo13 s0
     let onr := CircuitBuilder.one_wire fo13 zr.2
     let r := CircuitBuilder.sub fo13 onr.2 zr.1 onr.1
     r.1 ≠ onr.1 ∧ r.2.gate_constants.length = 3) := by
  decide

/-- C3 (amended): with the zero and one constants already cached, `add`
short-circuits when either operand is the cached zero target, `sub`
short-circuits only when the subtrahend is the cached zero target (a zero
minuend still emits a gate), `mul` short-circuits when either operand is the
cached one target; otherwise each call appends exactly one arithmetic gate
row and wires its operands via three copy constraints. -/
theorem c3_identity_shortcuts {F : Type} [DecidableEq F] (fo : FieldOps F)
    (s : CircuitBuilder F) (x y z o : Target)
    (hz : CircuitBuilder.lookup_constant s.constant_wires fo.ZERO = some z)
    (ho : CircuitBuilder.lookup_constant s.constant_wires fo.ONE = some o) :
    (x = z → CircuitBuilder.add fo s x y = (y, s)) ∧
    (x ≠ z → y = z → CircuitBuilder.add fo s x y = (x, s)) ∧
    (x ≠ z → y ≠ z →
      (CircuitBuilder.add fo s x y).1
          = Target.Wire ⟨s.num_gates, ArithmeticGate.WIRE_OUTPUT⟩ ∧
      (CircuitBuilder.add fo s x y).2.gate_constants
          = s.gate_constants ++
            [ArithmeticGate.PREFIX.map fo.from_canonical_bool ++ [fo.ONE, fo.ONE, fo.ZERO]] ∧
      (CircuitBuilder.add fo s x y).2.copy_constraints
          = s.copy_constraints ++
            [(x, Target.Wire ⟨s.num_gates, ArithmeticGate.WIRE_MULTIPLICAND_0⟩),
             (o, Target.Wire ⟨s.num_gates, ArithmeticGate.WIRE_MULTIPLICAND_1⟩),
             (y, Target.Wire ⟨s.num_gates, ArithmeticGate.WIRE_ADDEND⟩)]) ∧
    (y = z → CircuitBuilder.sub fo s x y = (x, s)) ∧
    (y ≠ z →
      (CircuitBuilder.sub fo s x y).1
          = Target.Wire ⟨s.num_gates, ArithmeticGate.WIRE_OUTPUT⟩ ∧
      (CircuitBuilder.sub fo s x y).2.gate_constants
          = s.gate_constants ++
            [ArithmeticGate.PREFIX.map fo.from_canonical_bool ++
              [fo.ONE, fo.NEG_ONE, fo.ZERO]]) ∧
    (x = o → CircuitBuilder.mul fo s x y = (y, s)) ∧
    (x ≠ o → y = o → CircuitBuilder.mul fo s x y = (x, s)) ∧
    (x ≠ o → y ≠ o →
      (CircuitBuilder.mul fo s x y).1
          = Target.Wire ⟨s.num_gates, ArithmeticGate.WIRE_OUTPUT⟩ ∧
      (CircuitBuilder.mul fo s x y).2.gate_constants
          = s.gate_constants ++
            [ArithmeticGate.PREFIX.map fo.from_canonical_bool ++ [fo.ONE, fo.ZERO, fo.ZERO]] ∧
      (CircuitBuilder.mul fo s x y).2.copy_constraints
          = s.copy_constraints ++
            [(x, Target.Wire ⟨s.num_gates, ArithmeticGate.WIRE_MULTIPLICAND_0⟩),
             (y, Target.Wire ⟨s.num_gates, ArithmeticGate.WIRE_MULTIPLICAND_1⟩),
             (z, Target.Wire ⟨s.num_gates, ArithmeticGate.WIRE_ADDEND⟩)]) := by
  have hzw : CircuitBuilder.zero_wire fo s = (z, s) :=
    CircuitBuilder.constant_wire_cached fo s fo.ZERO z hz
  have how : CircuitBuilder.one_wire fo s = (o, s) :=
    CircuitBuilder.constant_wire_cached fo s fo.ONE o ho
  refine ⟨?_, ?_, ?_, ?_, ?_, ?_, ?_, ?_⟩
  · intro hx
    unfold CircuitBuilder.add
    rw [hzw]
    simp [hx]
  · intro hx hy
    unfold CircuitBuilder.add
    rw [hzw]
    simp [hx, hy]
  · intro hx hy
    unfold CircuitBuilder.add
    rw [hzw]
    simp [hx, hy, how, CircuitBuilder.copy, CircuitBuilder.add_gate, CircuitBuilder.num_gates]
  · intro hy
    unfold CircuitBuilder.sub
    rw [hzw]
    simp [hy]
  · intro hy
    unfold CircuitBuilder.sub
    rw [hzw]
    simp [hy, how, CircuitBuilder.copy, CircuitBuilder.add_gate, CircuitBuilder.num_gates]
  · intro hx
    unfold CircuitBuilder.mul
    rw [how]
    simp [hx]
  · intro hx hy
    unfold CircuitBuilder.mul
    rw [how]
    simp [hx, hy]
  · intro hx hy
    unfold CircuitBuilder.mul
    rw [how]
    simp [hx, hy, hzw, CircuitBuilder.copy, CircuitBuilder.add_gate, CircuitBuilder.num_gates]

theorem c3_identity_shortcuts_witness :
    (let s0 : CircuitBuilder (ZMod 13) := CircuitBuilder.new
     let zr := CircuitBuilder.zero_wire fo13 s0
     let onr := CircuitBuilder.one_wire fo13 zr.2
     CircuitBuilder.add fo13 onr.2 zr.1 onr.1 = (onr.1, onr.2) ∧
     (CircuitBuilder.sub fo13 onr.2 zr.1 onr.1).2.gate_constants
        = onr.2.gate_constants ++
          [ArithmeticGate.PREFIX.map fo13.from_canonical_bool ++
            [fo13.ONE, fo13.NEG_ONE, fo13.ZERO]]) := by
  intro s0 zr onr
  have hz : CircuitBuilder.lookup_constant onr.2.constant_wires fo13.ZERO = some zr.1 := by
    decide
  have ho : CircuitBuilder.lookup_constant onr.2.constant_wires fo13.ONE = some onr.1 := by
    decide
  have h := c3_identity_shortcuts fo13 onr.2 zr.1 onr.1 zr.1 onr.1 hz ho
  exact ⟨h.1 rfl, (h.2.2.2.2.1 (by decide)).2⟩

/-- C7: `inv` allocates the next virtual target as its result, registers an
`InverseGenerator` that depends exactly on `x` and produces the external
field inverse of `x`'s assigned value (erroring with the source's fatal
"x = 0" message when the inverse does not exist), and — when `x` is not the
cached one target — emits the single arithmetic gate of `mul x x_inv` and
copy-constrains its output wire to the cached one-constant target. -/
theorem c7_inv_generator_and_constraint {F : Type} [DecidableEq F] (fo : FieldOps F)
    (s : CircuitBuilder F) (x z o : Target)
    (hz : CircuitBuilder.lookup_constant s.constant_wires fo.ZERO = some z)
    (ho : CircuitBuilder.lookup_constant s.constant_wires fo.ONE = some o)
    (hxo : x ≠ o) (hvo : Target.VirtualTarget ⟨s.virtual_target_index⟩ ≠ o) :
    (CircuitBuilder.inv fo s x).1 = Target.VirtualTarget ⟨s.virtual_target_index⟩ ∧
    (CircuitBuilder.inv fo s x).2.virtual_target_index = s.virtual_target_index + 1 ∧
    (CircuitBuilder.inv fo s x).2.generators
      = s.generators ++
        [Generator.InverseGenerator x (Target.VirtualTarget ⟨s.virtual_target_index⟩),
         Generator.gate ArithmeticGate.NAME] ∧
    Generator.dependencies (F := F)
        (Generator.InverseGenerator x (Target.VirtualTarget ⟨s.virtual_target_index⟩)) = [x] ∧
    (∀ (w : PartialWitness F) (v : F), w.wire_values x = some v →
      Generator.generate fo
          (Generator.InverseGenerator x (Target.VirtualTarget ⟨s.virtual_target_index⟩)) w
        = match fo.multiplicative_inverse v with
          | none => .error "x = 0"
          | some x_inv_value =>
            .ok ⟨fun t => if t = Target.VirtualTarget ⟨s.virtual_target_index⟩
                  then some x_inv_value else none⟩) ∧
    (CircuitBuilder.inv fo s x).2.gate_constants
      = s.gate_constants ++
        [ArithmeticGate.PREFIX.map fo.from_canonical_bool ++ [fo.ONE, fo.ZERO, fo.ZERO]] ∧
    (CircuitBuilder.inv fo s x).2.copy_constraints
      = s.copy_constraints ++
        [(x, Target.Wire ⟨s.num_gates, ArithmeticGate.WIRE_MULTIPLICAND_0⟩),
         (Target.VirtualTarget ⟨s.virtual_target_index⟩,
          Target.Wire ⟨s.num_gates, ArithmeticGate.WIRE_MULTIPLICAND_1⟩),
         (z, Target.Wire ⟨s.num_gates, ArithmeticGate.WIRE_ADDEND⟩),
         (Target.Wire ⟨s.num_gates, ArithmeticGate.WIRE_OUTPUT⟩, o)] := by
  refine ⟨?_, ?_, ?_, rfl, ?_, ?_, ?_⟩
  · simp [CircuitBuilder.inv, CircuitBuilder.add_virtual_target]
  · simp [CircuitBuilder.inv, CircuitBuilder.add_virtual_target, CircuitBuilder.add_generator,
      CircuitBuilder.mul, CircuitBuilder.one_wire, CircuitBuilder.zero_wire,
      CircuitBuilder.constant_wire, hz, ho, hxo, hvo, CircuitBuilder.copy,
      CircuitBuilder.add_gate]
  · simp [CircuitBuilder.inv, CircuitBuilder.add_virtual_target, CircuitBuilder.add_generator,
      CircuitBuilder.mul, CircuitBuilder.one_wire, CircuitBuilder.zero_wire,
      CircuitBuilder.constant_wire, hz, ho, hxo, hvo, CircuitBuilder.copy,
      CircuitBuilder.add_gate]
  · intro w v hwv
    simp [Generator.generate, hwv]
  · simp [CircuitBuilder.inv, CircuitBuilder.add_virtual_target, CircuitBuilder.add_generator,
      CircuitBuilder.mul, CircuitBuilder.one_wire, CircuitBuilder.zero_wire,
      CircuitBuilder.constant_wire, hz, ho, hxo, hvo, CircuitBuilder.copy,
      CircuitBuilder.add_gate]
  · simp [CircuitBuilder.inv, CircuitBuilder.add_virtual_target, CircuitBuilder.add_generator,
      CircuitBuilder.mul, CircuitBuilder.one_wire, CircuitBuilder.zero_wire,
      CircuitBuilder.constant_wire, hz, ho, hxo, hvo, CircuitBuilder.copy,
      CircuitBuilder.add_gate, CircuitBuilder.num_gates]

theorem c7_inv_generator_and_constraint_witness :
    (let s0 : CircuitBuilder (ZMod 13) := CircuitBuilder.new
     let zr := CircuitBuilder.zero_wire fo13 s0
     let onr := CircuitBuilder.one_wire fo13 zr.2
     let x : Target := Target.VirtualTarget ⟨5⟩
     (CircuitBuilder.inv fo13 onr.2 x).1
        = Target.VirtualTarget ⟨onr.2.virtual_target_index⟩ ∧
     (Generator.generate fo13
        (Generator.InverseGenerator x (Target.VirtualTarget ⟨onr.2.virtual_target_index⟩))
        ⟨fun u => if u = x then some (3 : ZMod 13) else none⟩
       = (match fo13.multiplicative_inverse (3 : ZMod 13) with
          | none => .error "x = 0"
          | some x_inv_value =>
            .ok ⟨fun t => if t = Target.VirtualTarget ⟨onr.2.virtual_target_index⟩
                  then some x_inv_value else none⟩)) ∧
     (Generator.generate fo13
        (Generator.InverseGenerator x (Target.VirtualTarget ⟨onr.2.virtual_target_index⟩))
        ⟨fun u => if u = x then some (0 : ZMod 13) else none⟩
       = (match fo13.multiplicative_inverse (0 : ZMod 13) with
          | none => .error "x = 0"
          | some x_inv_value =>
            .ok ⟨fun t => if t = Target.VirtualTarget ⟨onr.2.virtual_target_index⟩
                  then some x_inv_value else none⟩))) := by
  intro s0 zr onr x
  have h := c7_inv_generator_and_constraint fo13 onr.2 x zr.1 onr.1
    (by decide) (by decide) (by decide) (by decide)
  exact ⟨h.1, h.2.2.2.2.1 _ 3 (by decide), h.2.2.2.2.1 _ 0 (by decide)⟩

theorem exp_constant_loop_squarings_le {F : Type} [DecidableEq F] (fo : FieldOps F)
    (bits : List Bool) (s : CircuitBuilder F) (current product : Target)
    (power_bits bit_index : Nat) :
    bit_index ≤ power_bits →
    (CircuitBuilder.exp_constant_loop fo s current product bits power_bits bit_index).2.2
      ≤ power_bits - bit_index := by
  induction bits generalizing s current product bit_index with
  | nil =>
    intro h
    simp [CircuitBuilder.exp_constant_loop]
  | cons b rest ih =>
    intro h
    unfold CircuitBuilder.exp_constant_loop
    by_cases hbi : bit_index = power_bits
    · simp [hbi]
    · have hlt : bit_index < power_bits := lt_of_le_of_ne h hbi
      simp only [if_neg hbi]
      have hrec := ih
        (CircuitBuilder.square fo
          (if b then CircuitBuilder.mul fo s product current else (product, s)).2 current).2
        (CircuitBuilder.square fo
          (if b then CircuitBuilder.mul fo s product current else (product, s)).2 current).1
        (if b then CircuitBuilder.mul fo s product current else (product, s)).1
        (bit_index + 1) hlt
      omega

theorem exp_constant_loop_power_bits_zero {F : Type} [DecidableEq F] (fo : FieldOps F)
    (s : CircuitBuilder F) (current product : Target) (bits : List Bool) :
    CircuitBuilder.exp_constant_loop fo s current product bits 0 0 = (product, s, 0) := by
  cases bits with
  | nil => rfl
  | cons b rest => rfl

/-- C8: with `num_bits ZERO = 0` (the external field's canonical bit
decomposition contract), `exp_constant x ZERO` returns the cached
one-constant target with the builder state of `one_wire` alone, and for
every exponent the number of `square` calls the bit loop performs is at
most `num_bits power` — the loop stops at the exponent's highest set bit
instead of scanning all 64-bit limbs. -/
theorem c8_exp_constant_zero_and_squarings {F : Type} [DecidableEq F] (fo : FieldOps F)
    (s : CircuitBuilder F) (x : Target) (power : F)
    (h0 : fo.num_bits fo.ZERO = 0) :
    CircuitBuilder.exp_constant fo s x fo.ZERO = CircuitBuilder.one_wire fo s ∧
    CircuitBuilder.exp_constant_squarings fo s x power ≤ fo.num_bits power := by
  constructor
  · simp only [CircuitBuilder.exp_constant]
    rw [h0, exp_constant_loop_power_bits_zero]
  · unfold CircuitBuilder.exp_constant_squarings
    have h := exp_constant_loop_squarings_le fo
      ((fo.to_canonical_u64_vec power).flatMap CircuitBuilder.limb_bits)
      (CircuitBuilder.one_wire fo s).2 x (CircuitBuilder.one_wire fo s).1
      (fo.num_bits power) 0 (Nat.zero_le _)
    simpa using h

theorem c8_exp_constant_zero_and_squarings_witness :
    fo13.num_bits fo13.ZERO = 0 ∧
    CircuitBuilder.exp_constant fo13 (CircuitBuilder.new) (Target.VirtualTarget ⟨0⟩) fo13.ZERO
      = CircuitBuilder.one_wire fo13 (CircuitBuilder.new) ∧
    CircuitBuilder.exp_constant_squarings fo13 (CircuitBuilder.new)
        (Target.VirtualTarget ⟨0⟩) (5 : ZMod 13)
      ≤ fo13.num_bits (5 : ZMod 13) := by
  have h0 : fo13.num_bits fo13.ZERO = 0 := by decide
  exact ⟨h0,
    (c8_exp_constant_zero_and_squarings fo13 (CircuitBuilder.new)
      (Target.VirtualTarget ⟨0⟩) fo13.ZERO h0).1,
    (c8_exp_constant_zero_and_squarings fo13 (CircuitBuilder.new)
      (Target.VirtualTarget ⟨0⟩) (5 : ZMod 13) h0).2⟩

theorem CircuitBuilder.constant_affine_point_error_msg {F : Type} [DecidableEq F]
    (fo : FieldOps F) (s : CircuitBuilder F) (p : AffinePoint F) (e : String)
    (h : CircuitBuilder.constant_affine_point fo s p = .error e) :
    e = "assert failed: !point.zero" := by
  unfold CircuitBuilder.constant_affine_point at h
  by_cases hz : p.zero
  · simp [hz] at h
    exact h.symm
  · simp [hz] at h

theorem msm_subtract_filler_ne_empty {F : Type} [DecidableEq F] (fo : FieldOps F)
    (st : MsmState F) :
    CircuitBuilder.msm_subtract_filler fo st ≠ .error "Empty MSM" := by
  unfold CircuitBuilder.msm_subtract_filler
  cases hc : CircuitBuilder.constant_affine_point fo st.s st.filler with
  | error e =>
    have he := CircuitBuilder.constant_affine_point_error_msg fo st.s st.filler e hc
    subst he
    intro hcontra
    rw [Except.error.injEq] at hcontra
    exact absurd hcontra (by decide)
  | ok fts => simp

/-- C9: with a non-identity curve generator (the external curve contract),
`curve_msm` on an empty part list fails with the source's fatal
"Empty MSM" `expect` message rather than returning a result, while on any
non-empty part list that particular failure cannot occur (the bit-length
maximum exists, and the only other failure site is the nonzero-point
assertion of `constant_affine_point`, which carries a different message). -/
theorem c9_curve_msm_empty_parts {F : Type} [DecidableEq F] (fo : FieldOps F)
    (co : CurveOps F) (s : CircuitBuilder F)
    (hgen : co.GENERATOR_AFFINE.zero = false) :
    CircuitBuilder.curve_msm fo co s [] = .error "Empty MSM" ∧
    (∀ parts, parts ≠ [] →
      CircuitBuilder.curve_msm fo co s parts ≠ .error "Empty MSM") := by
  constructor
  · unfold CircuitBuilder.curve_msm
    simp [CircuitBuilder.constant_affine_point, hgen]
  · intro parts hne
    simp only [CircuitBuilder.curve_msm]
    cases hc : CircuitBuilder.constant_affine_point fo s co.GENERATOR_AFFINE with
    | error e =>
      have he := CircuitBuilder.constant_affine_point_error_msg fo s co.GENERATOR_AFFINE e hc
      subst he
      intro hcontra
      rw [Except.error.injEq] at hcontra
      exact absurd hcontra (by decide)
    | ok accs =>
      obtain ⟨p, ps, rfl⟩ : ∃ p ps, parts = p :: ps := by
        cases parts with
        | nil => exact absurd rfl hne
        | cons p ps => exact ⟨p, ps, rfl⟩
      exact msm_subtract_filler_ne_empty fo _

theorem c9_curve_msm_empty_parts_witness :
    CircuitBuilder.curve_msm fo13 co13 (CircuitBuilder.new) [] = .error "Empty MSM" ∧
    CircuitBuilder.curve_msm fo13 co13 (CircuitBuilder.new)
        [⟨[Target.VirtualTarget ⟨9⟩], ⟨Target.VirtualTarget ⟨1⟩, Target.VirtualTarget ⟨2⟩⟩⟩]
      ≠ .error "Empty MSM" := by
  have h := c9_curve_msm_empty_parts fo13 co13 (CircuitBuilder.new) (by decide)
  exact ⟨h.1, h.2
    [⟨[Target.VirtualTarget ⟨9⟩], ⟨Target.VirtualTarget ⟨1⟩, Target.VirtualTarget ⟨2⟩⟩⟩]
    (by simp)⟩

theorem CircuitBuilder.constant_affine_point_ok_nonzero {F : Type} [DecidableEq F]
    (fo : FieldOps F) (s : CircuitBuilder F) (p : AffinePoint F)
    (r : AffinePointTarget × CircuitBuilder F)
    (h : CircuitBuilder.constant_affine_point fo s p = .ok r) : p.zero = false := by
  unfold CircuitBuilder.constant_affine_point at h
  by_cases hz : p.zero
  · simp [hz] at h
  · simpa using hz

theorem fixed_base_variable_parts_ok_nonzero {F : Type} [DecidableEq F] (fo : FieldOps F)
    (parts : List (FixedBaseMsmPart F)) (s : CircuitBuilder F)
    (r : List MsmPart × CircuitBuilder F)
    (h : CircuitBuilder.fixed_base_variable_parts fo parts s = .ok r) :
    ∀ p ∈ parts, p.addend.zero = false := by
  induction parts generalizing s r with
  | nil =>
    intro p hp
    simp at hp
  | cons q qs ih =>
    intro p hp
    unfold CircuitBuilder.fixed_base_variable_parts at h
    rcases hc : CircuitBuilder.constant_affine_point fo s q.addend with e | aps
    · simp [hc] at h
    · simp only [hc] at h
      rcases hr : CircuitBuilder.fixed_base_variable_parts fo qs aps.2 with e2 | rest
      · simp [hr] at h
      · rcases List.mem_cons.mp hp with rfl | hmem
        · exact CircuitBuilder.constant_affine_point_ok_nonzero fo s p.addend aps hc
        · exact ih aps.2 rest hr p hmem

/-- C10: `constant_affine_point` fails the source's assertion on the curve's
zero/identity point and, for every nonzero point, returns the memoized
constant wires for its coordinates; consequently a successful
`curve_msm_fixed_base` run implies every part's addend was a non-identity
point, and a successful `curve_msm` run implies the generator used to seed
the filler was non-identity. -/
theorem c10_constant_affine_point_nonzero {F : Type} [DecidableEq F] (fo : FieldOps F)
    (co : CurveOps F) :
    (∀ (s : CircuitBuilder F) (point : AffinePoint F),
      (point.zero = true →
        CircuitBuilder.constant_affine_point fo s point
          = .error "assert failed: !point.zero") ∧
      (point.zero = false →
        CircuitBuilder.constant_affine_point fo s point
          = .ok (⟨(CircuitBuilder.constant_wire fo s point.x).1,
                  (CircuitBuilder.constant_wire fo
                    (CircuitBuilder.constant_wire fo s point.x).2 point.y).1⟩,
                 (CircuitBuilder.constant_wire fo
                    (CircuitBuilder.constant_wire fo s point.x).2 point.y).2))) ∧
    (∀ (s : CircuitBuilder F) (parts : List (FixedBaseMsmPart F))
        (r : MsmResult × CircuitBuilder F),
      CircuitBuilder.curve_msm_fixed_base fo co s parts = .ok r →
      ∀ p ∈ parts, p.addend.zero = false) ∧
    (∀ (s : CircuitBuilder F) (parts : List MsmPart) (r : MsmResult × CircuitBuilder F),
      CircuitBuilder.curve_msm fo co s parts = .ok r →
      co.GENERATOR_AFFINE.zero = false) := by
  refine ⟨fun s point => ⟨fun hz => ?_, fun hz => ?_⟩, fun s parts r h => ?_, fun s parts r h => ?_⟩
  · simp [CircuitBuilder.constant_affine_point, hz]
  · simp [CircuitBuilder.constant_affine_point, hz]
  · unfold CircuitBuilder.curve_msm_fixed_base at h
    rcases hv : CircuitBuilder.fixed_base_variable_parts fo parts s with e | vps
    · simp [hv] at h
    · exact fixed_base_variable_parts_ok_nonzero fo parts s vps hv
  · simp only [CircuitBuilder.curve_msm] at h
    rcases hc : CircuitBuilder.constant_affine_point fo s co.GENERATOR_AFFINE with e | accs
    · simp [hc] at h
    · exact CircuitBuilder.constant_affine_point_ok_nonzero fo s co.GENERATOR_AFFINE accs hc

theorem c10_constant_affine_point_nonzero_witness :
    CircuitBuilder.constant_affine_point fo13 (CircuitBuilder.new)
        (⟨3, 4, true⟩ : AffinePoint (ZMod 13)) = .error "assert failed: !point.zero" ∧
    CircuitBuilder.constant_affine_point fo13 (CircuitBuilder.new)
        (⟨3, 4, false⟩ : AffinePoint (ZMod 13))
      = .ok (⟨(CircuitBuilder.constant_wire fo13 (CircuitBuilder.new) (3 : ZMod 13)).1,
              (CircuitBuilder.constant_wire fo13
                (CircuitBuilder.constant_wire fo13 (CircuitBuilder.new) (3 : ZMod 13)).2
                (4 : ZMod 13)).1⟩,
             (CircuitBuilder.constant_wire fo13
                (CircuitBuilder.constant_wire fo13 (CircuitBuilder.new) (3 : ZMod 13)).2
                (4 : ZMod 13)).2) := by
  have h := c10_constant_affine_point_nonzero fo13 co13
  exact ⟨(h.1 (CircuitBuilder.new) ⟨3, 4, true⟩).1 rfl,
         (h.1 (CircuitBuilder.new) ⟨3, 4, false⟩).2 rfl⟩

end Plonk
